import Mathlib

/-!
# Thumbnail cache: `thumbnail-cache.js`

A shallow embedding of the three functions of `thumbnail-cache.js`
(`index`, `create`, `cache`).  The callbacks of the source are sequenced
into plain functions that return the arguments handed to the final
callback, the list of collaborator calls made on the way, and the content
of the metadata table afterwards.

Conventions of the embedding.

* A JavaScript property that may be `undefined` is an `Option`; reading a
  property that an object does not have gives `undefined` too, so an option
  object `{}` and `{width: undefined, height: undefined, crop: undefined}`
  are the same value `⟨none, none, none⟩`.
* The Numbers `width` and `height` are natural numbers: the model covers
  `undefined` and the non-negative integers, and leaves out `NaN`, negative
  and fractional Numbers.  Their conversion to a string is the decimal numeral
  (what JavaScript prints for an integer below `10^21`).  The statements about
  options are made on the options of the data model (`Options.WellFormed`:
  positive integers, crop `Center` or `North`).
* `if (x)` is JavaScript truthiness: `undefined`, the number `0` and the
  empty string are falsy.
-/

namespace ThumbnailCache

/-! ## Values -/

/-- The S3 image object `{Bucket, Key}`. -/
structure Image where
  Bucket : String
  Key : String
deriving DecidableEq, Repr

/-- The thumbnail options `{width, height, crop}`; `none` is `undefined`. -/
structure Options where
  width : Option Nat
  height : Option Nat
  crop : Option String
deriving DecidableEq, Repr

/-- The S3 thumbnail object `{Bucket, Key}`.  In `cache` its two properties
are read from a stored item with `.S`, which may give `undefined`. -/
structure Thumb where
  Bucket : Option String
  Key : Option String
deriving DecidableEq, Repr

/-- Truthiness of a Number-or-undefined: `if (options.width)`. -/
def truthyNum : Option Nat → Bool
  | some n => n != 0
  | none => false

/-- Truthiness of a String-or-undefined: `if (options.crop)`. -/
def truthyStr : Option String → Bool
  | some s => s != ""
  | none => false

/-- String conversion of a Number-or-undefined in `'w=' + options.width`
and in `options.width.toString()`. -/
def numStr : Option Nat → String
  | some n => toString n
  | none => "undefined"

/-- String conversion of a String-or-undefined in a concatenation. -/
def strStr : Option String → String
  | some s => s
  | none => "undefined"

/-! ## `index` -/

/-- The function `index(image, options)` of the source, lines 162-171. -/
def index (image : Image) (options : Options) : String :=
  let index := "b=" ++ image.Bucket ++ "k=" ++ image.Key
  let index := if truthyNum options.width then index ++ ("w=" ++ numStr options.width) else index
  let index := if truthyNum options.height then index ++ ("h=" ++ numStr options.height) else index
  let index := if truthyStr options.crop then index ++ ("c=" ++ strStr options.crop) else index
  index

/-! ## DynamoDB items -/

/-- A DynamoDB attribute value, `{S: ...}` or `{N: ...}`.  The source builds
`{S: data.imageETag}` from a parsed response, where the property may be
`undefined`. -/
inductive Attr where
  | S (v : Option String)
  | N (v : String)
deriving DecidableEq, Repr

/-- The property `.S` of an attribute value: `undefined` on `{N: ...}`. -/
def Attr.getS : Attr → Option String
  | .S v => v
  | .N _ => none

/-- An item: the properties of a JavaScript object, in insertion order. -/
abbrev Item := List (String × Attr)

/-- Property read `item.name`; `none` when the item has no such property. -/
def getField : Item → String → Option Attr
  | [], _ => none
  | (k, b) :: rest, name => if k = name then some b else getField rest name

/-- Property assignment `item.name = v`: replaces the value of an existing
property, adds the property at the end otherwise. -/
def setField : Item → String → Attr → Item
  | [], name, v => [(name, v)]
  | (k, b) :: rest, name, v =>
    if k = name then (name, v) :: rest else (k, b) :: setField rest name v

/-! ## Collaborators -/

/-- An error object handed to a callback.  Error objects are always
truthy. -/
structure Err where
  message : String
deriving DecidableEq, Repr

/-- An exception that leaves a callback uncaught: the `SyntaxError` of
`JSON.parse`, or the `TypeError` of a property access on `undefined` or
`null`. -/
inductive Exn where
  | syntaxError
  | typeError
deriving DecidableEq, Repr

/-- The two properties `create` reads from `JSON.parse(body)`; `none` is a
property the parsed value does not have. -/
structure Data where
  imageETag : Option String
  thumbType : Option String
deriving DecidableEq, Repr

/-- What `JSON.parse(body)` returns when it does not throw: the value `null`,
on which reading a property throws a `TypeError`, or any other value, of which
`create` reads the two properties. -/
inductive Parsed where
  | null
  | value (data : Data)
deriving DecidableEq, Repr

/-- The constants of `config.json`. -/
structure Config where
  TABLE : String
  BUCKET : String
  S3THUMBNAILAPI : String
deriving DecidableEq, Repr

/-- The content of the DynamoDB table: items by the string of their `Index`
attribute, the table's key.  The table is a service outside the program; its
read and write below are the keyed lookup and the full overwrite that the
specification gives as the contract of the metadata store. -/
abbrev Store := List (String × Item)

/-- What the collaborators answer during one call: `dynamodb.getItem` and
`dynamodb.putItem` fail with the given error when there is one and act on the
table otherwise; `s3.headObject` gives an error or the `ETag`; `uuid.v1()`
gives a string; `request(uri, ...)` gives an error or a status code and a
body; `JSON.parse` throws (`none`) or gives the parsed value.  Whether the
table accepts a write is its own answer, `putItemErr`. -/
structure Env where
  config : Config
  getItemErr : Option Err
  headObject : Image → Except Err String
  uuid : String
  request : String → Except Err (Nat × String)
  jsonParse : String → Option Parsed
  putItemErr : Option Err

/-- The collaborator calls, in the order they are made; `create` marks an
entry into the function `create`. -/
inductive Event where
  | getItem (table : String) (key : String)
  | uuid
  | headObject (image : Image)
  | create (image : Image) (thumb : Thumb) (options : Options)
  | request (uri : String)
  | putItem (table : String) (item : Item)
deriving DecidableEq, Repr

/-- How a call ends: the callback is invoked with `(err, item)`, `none` being
`null`; or an exception escapes and the callback is never invoked. -/
inductive Outcome where
  | callback (err : Option Err) (item : Option Item)
  | threw (e : Exn)
deriving DecidableEq, Repr

/-- A finished call: its outcome, the collaborator calls it made, and the
table afterwards. -/
structure Result where
  outcome : Outcome
  trace : List Event
  store : Store
deriving DecidableEq, Repr

/-- The read `dynamodb.getItem` of the record with key `key`: `Item` of the
answer, absent when the table has no such record. -/
def Store.get : Store → String → Option Item
  | [], _ => none
  | (k, item) :: rest, key => if k = key then some item else Store.get rest key

/-- The write `dynamodb.putItem`: a full overwrite of the record that has the
key of `item`.  An item without a string `Index` is refused. -/
def Store.put (store : Store) (item : Item) : Except Err Store :=
  match getField item "Index" with
  | some (.S (some key)) => .ok ((key, item) :: store.filter (fun p => p.1 != key))
  | _ => .error ⟨"ValidationException"⟩

/-! ## `create` -/

/-- The address `create` requests, lines 113-123. -/
def requestUri (config : Config) (image : Image) (thumb : Thumb) (options : Options) : String :=
  let uri := config.S3THUMBNAILAPI ++ "?" ++
             "imagebucket=" ++ image.Bucket ++
             "&imagekey=" ++ image.Key ++
             "&thumbbucket=" ++ strStr thumb.Bucket ++
             "&thumbkey=" ++ strStr thumb.Key
  let uri := if truthyNum options.width then uri ++ "&width=" ++ numStr options.width else uri
  let uri := if truthyNum options.height then uri ++ "&height=" ++ numStr options.height else uri
  let uri := if truthyStr options.crop then uri ++ "&crop=" ++ strStr options.crop else uri
  uri

/-- The object `item.Item` that `create` builds from the parsed response,
lines 142-155. -/
def assemble (image : Image) (thumb : Thumb) (options : Options) (data : Data) : Item :=
  let item : Item := []
  let item := setField item "Index" (.S (some (index image options)))
  let item := setField item "ImageBucket" (.S (some image.Bucket))
  let item := setField item "ImageKey" (.S (some image.Key))
  let item := setField item "ImageETag" (.S data.imageETag)
  let item := setField item "ThumbBucket" (.S thumb.Bucket)
  let item := setField item "ThumbKey" (.S thumb.Key)
  let item := setField item "ThumbContentType" (.S data.thumbType)
  let item := if truthyNum options.width then
    setField item "Width" (.N (numStr options.width)) else item
  let item := if truthyNum options.height then
    setField item "Height" (.N (numStr options.height)) else item
  let item := if truthyStr options.crop then
    setField item "Crop" (.S options.crop) else item
  item

/-- The function `create(image, thumb, options, callback)` of the source,
lines 112-160. -/
def create (env : Env) (store : Store) (image : Image) (thumb : Thumb) (options : Options) :
    Result :=
  let uri := requestUri env.config image thumb options
  let entered := [Event.create image thumb options, Event.request uri]
  match env.request uri with
  | .error err => ⟨.callback (some err) none, entered, store⟩
  | .ok (statusCode, body) =>
    if statusCode ≠ 200 then
      let err : Err := ⟨"s3 thumbnail API request error: " ++ toString statusCode⟩
      ⟨.callback (some err) none, entered, store⟩
    else
      match env.jsonParse body with
      | none => ⟨.threw .syntaxError, entered, store⟩
      | some .null => ⟨.threw .typeError, entered, store⟩
      | some (.value data) =>
        let item := assemble image thumb options data
        let written := entered ++ [Event.putItem env.config.TABLE item]
        match env.putItemErr with
        | some err => ⟨.callback (some err) none, written, store⟩
        | none =>
          match store.put item with
          | .error err => ⟨.callback (some err) none, written, store⟩
          | .ok store' => ⟨.callback none (some item), written, store'⟩

/-! ## `cache` -/

/-- The callback `cache` hands to `create` (lines 54-61 and 79-86): an error
is passed on with a `null` item, a record gets the `Status` attribute. -/
def tagStatus (status : String) (r : Result) (before : List Event) : Result :=
  match r.outcome with
  | .callback (some err) _ => ⟨.callback (some err) none, before ++ r.trace, r.store⟩
  | .callback none (some item) =>
    ⟨.callback none (some (setField item "Status" (.S (some status)))), before ++ r.trace, r.store⟩
  | .callback none none => ⟨.threw .typeError, before ++ r.trace, r.store⟩
  | .threw e => ⟨.threw e, before ++ r.trace, r.store⟩

/-- The function `cache(image, options, callback)` of the source, lines
38-90. -/
def cache (env : Env) (store : Store) (image : Image) (options : Options) : Result :=
  let key := index image options
  let read := [Event.getItem env.config.TABLE key]
  match env.getItemErr with
  | some err => ⟨.callback (some err) none, read, store⟩
  | none =>
    match store.get key with
    | none =>
      -- no cached thumbnail
      let thumb : Thumb := ⟨some env.config.BUCKET, some env.uuid⟩
      tagStatus "added" (create env store image thumb options) (read ++ [Event.uuid])
    | some cachedItem =>
      -- check update
      let checked := read ++ [Event.headObject image]
      match env.headObject image with
      | .error err => ⟨.callback (some err) none, checked, store⟩
      | .ok etag =>
        match getField cachedItem "ImageETag" with
        | none => ⟨.threw .typeError, checked, store⟩
        | some imageETag =>
          if some etag = imageETag.getS then
            ⟨.callback none (some (setField cachedItem "Status" (.S (some "cached")))),
              checked, store⟩
          else
            match getField cachedItem "ThumbBucket", getField cachedItem "ThumbKey" with
            | some thumbBucket, some thumbKey =>
              let thumb : Thumb := ⟨thumbBucket.getS, thumbKey.getS⟩
              tagStatus "updated" (create env store image thumb options) checked
            | _, _ => ⟨.threw .typeError, checked, store⟩

/-! ## Reading a result -/

/-- The record handed to the callback, when there is one. -/
def Result.record (r : Result) : Option Item :=
  match r.outcome with
  | .callback _ item => item
  | .threw _ => none

/-- The `Status` attribute of the record handed to the callback. -/
def Result.status (r : Result) : Option Attr :=
  match r.record with
  | some item => getField item "Status"
  | none => none

/-- Entries into `create`. -/
def Event.isCreate : Event → Bool
  | .create _ _ _ => true
  | _ => false

/-- Calls of `dynamodb.putItem`. -/
def Event.isPutItem : Event → Bool
  | .putItem _ _ => true
  | _ => false

/-- Calls of `s3.headObject`. -/
def Event.isHeadObject : Event → Bool
  | .headObject _ => true
  | _ => false

/-- Calls of `uuid.v1`. -/
def Event.isUuid : Event → Bool
  | .uuid => true
  | _ => false

/-- The options of the data model: a width or height that is present is a
positive integer, a crop that is present is `Center` or `North`. -/
def Options.WellFormed (options : Options) : Prop :=
  (∀ w, options.width = some w → 0 < w) ∧
  (∀ h, options.height = some h → 0 < h) ∧
  (∀ c, options.crop = some c → c = "Center" ∨ c = "North")

/-- The key as the specification words it: after the bucket and the key, the
tag and value of each option that is present, in the order width, height,
crop. -/
def presentKey (image : Image) (options : Options) : String :=
  "b=" ++ image.Bucket ++ "k=" ++ image.Key ++
  (match options.width with
   | some w => "w=" ++ toString w
   | none => "") ++
  (match options.height with
   | some h => "h=" ++ toString h
   | none => "") ++
  (match options.crop with
   | some c => "c=" ++ c
   | none => "")

/-- The record as the specification words it: the seven fixed attributes,
then `Width`, `Height`, `Crop` for each option that is present, and nothing
else. -/
def presentRecord (image : Image) (thumb : Thumb) (options : Options) (e t : String) : Item :=
  [("Index", .S (some (index image options))),
   ("ImageBucket", .S (some image.Bucket)),
   ("ImageKey", .S (some image.Key)),
   ("ImageETag", .S (some e)),
   ("ThumbBucket", .S thumb.Bucket),
   ("ThumbKey", .S thumb.Key),
   ("ThumbContentType", .S (some t))] ++
  (match options.width with
   | some w => [("Width", .N (toString w))]
   | none => []) ++
  (match options.height with
   | some h => [("Height", .N (toString h))]
   | none => []) ++
  (match options.crop with
   | some c => [("Crop", .S (some c))]
   | none => [])

/-! ## Definitions used in the proofs -/

/-- Value of a decimal numeral read left to right. -/
def numeralValue (cs : List Char) : Nat :=
  cs.foldl (fun acc c => 10 * acc + (c.toNat - 48)) 0

/-- A list of characters that does not start with a decimal digit. -/
def NoDigitHead (r : List Char) : Prop :=
  ∀ c, r.head? = some c → c.isDigit = false

/-- Characters a width or height adds to the key. -/
def numChars (tag : Char) : Option Nat → List Char
  | some n => if n = 0 then [] else tag :: '=' :: (toString n).data
  | none => []

/-- Characters a crop adds to the key. -/
def cropChars : Option String → List Char
  | some s => if s = "" then [] else 'c' :: '=' :: s.data
  | none => []

/-- Characters the options add to the key. -/
def optionChars (options : Options) : List Char :=
  numChars 'w' options.width ++ (numChars 'h' options.height ++ cropChars options.crop)

/-! ## A concrete scenario -/

/-- Configuration of the scenario. -/
def sampleConfig : Config := ⟨"thumbnails", "thumbs", "http://localhost/thumbnail"⟩

/-- Image of the scenario: bucket `imgs`, key `a.png`. -/
def sampleImage : Image := ⟨"imgs", "a.png"⟩

/-- Options of the scenario: width 100 and crop `Center`. -/
def sampleOptions : Options := ⟨some 100, none, some "Center"⟩

/-- A parser for three response bodies: two complete ones and the body
`null`; any other body is unparsable. -/
def sampleParse (body : String) : Option Parsed :=
  if body = "e1.json" then some (.value ⟨some "e1", some "image/png"⟩)
  else if body = "e2.json" then some (.value ⟨some "e2", some "image/png"⟩)
  else if body = "null" then some .null
  else none

/-- Collaborators that all succeed: the object store reports `etag`, the
rendering capability answers `statusCode` with `body`. -/
def sampleEnv (etag : String) (statusCode : Nat) (body : String) : Env :=
  ⟨sampleConfig, none, fun _ => .ok etag, "uuid-1", fun _ => .ok (statusCode, body),
    sampleParse, none⟩

/-- The record of the scenario with fingerprint `e1`. -/
def sampleRecord : Item :=
  assemble sampleImage ⟨some "thumbs", some "uuid-1"⟩ sampleOptions ⟨some "e1", some "image/png"⟩

/-- A table that holds the record of the scenario. -/
def sampleStore : Store := [("b=imgsk=a.pngw=100c=Center", sampleRecord)]

/-! # Theorems -/

/-! ## The key -/

/-- C1: for every image and every options value of the data model,
`index(image, options)` is `b=` and the bucket, `k=` and the key, then `w=` and
the width if the width is present, `h=` and the height if the height is
present, `c=` and the crop if the crop is present, in that order and with
nothing else; absent options contribute nothing (an empty options object and
one with its three properties `undefined` are the same value here). -/
theorem index_eq_presentKey (image : Image) (options : Options)
    (hwf : options.WellFormed) :
    index image options = presentKey image options ∧
    index image ⟨none, none, none⟩ = "b=" ++ image.Bucket ++ "k=" ++ image.Key := by
  obtain ⟨hw, hh, hc⟩ := hwf
  obtain ⟨w, h, c⟩ := options
  refine ⟨?_, by simp [index, truthyNum, truthyStr]⟩
  have hw0 : ∀ n, w = some n → n ≠ 0 := fun n e => Nat.pos_iff_ne_zero.mp (hw n e)
  have hh0 : ∀ n, h = some n → n ≠ 0 := fun n e => Nat.pos_iff_ne_zero.mp (hh n e)
  have hc0 : ∀ x, c = some x → x ≠ "" := by
    intro x e
    rcases hc x e with h1 | h1 <;> rw [h1] <;> decide
  cases w <;> cases h <;> cases c <;>
    simp_all [index, presentKey, truthyNum, truthyStr, numStr, strStr, String.append_assoc]

/-- C1 at bucket `imgs`, key `a.png`, width 100 and crop `Center`: the index
is `b=imgsk=a.pngw=100c=Center`. -/
theorem index_eq_presentKey_witness :
    index ⟨"imgs", "a.png"⟩ ⟨some 100, none, some "Center"⟩ = "b=imgsk=a.pngw=100c=Center" ∧
    index ⟨"imgs", "a.png"⟩ ⟨some 100, none, some "Center"⟩ =
      presentKey ⟨"imgs", "a.png"⟩ ⟨some 100, none, some "Center"⟩ :=
  ⟨by decide, (index_eq_presentKey ⟨"imgs", "a.png"⟩ ⟨some 100, none, some "Center"⟩
    ⟨by simp, by simp, by simp⟩).1⟩

/-! ## Decimal numerals -/

theorem digitChar_isDigit (k : Nat) (hk : k < 10) : (Nat.digitChar k).isDigit = true := by
  interval_cases k <;> decide

theorem digitChar_value (k : Nat) (hk : k < 10) : (Nat.digitChar k).toNat - 48 = k := by
  interval_cases k <;> decide

theorem toDigitsCore_acc (fuel : Nat) : ∀ (n : Nat) (ds : List Char),
    Nat.toDigitsCore 10 fuel n ds = Nat.toDigitsCore 10 fuel n [] ++ ds := by
  induction fuel with
  | zero => intro n ds; simp [Nat.toDigitsCore]
  | succ fuel ih =>
    intro n ds
    simp only [Nat.toDigitsCore]
    split
    · simp
    · rw [ih (n / 10) (Nat.digitChar (n % 10) :: ds), ih (n / 10) [Nat.digitChar (n % 10)]]
      simp

theorem toDigitsCore_isDigit (fuel : Nat) : ∀ (n : Nat) (c : Char),
    c ∈ Nat.toDigitsCore 10 fuel n [] → c.isDigit = true := by
  induction fuel with
  | zero => intro n c hc; simp [Nat.toDigitsCore] at hc
  | succ fuel ih =>
    intro n c hc
    simp only [Nat.toDigitsCore] at hc
    split at hc
    · simp only [List.mem_singleton] at hc
      subst hc
      exact digitChar_isDigit _ (Nat.mod_lt _ (by decide))
    · rw [toDigitsCore_acc] at hc
      simp only [List.mem_append, List.mem_singleton] at hc
      rcases hc with hc | hc
      · exact ih _ _ hc
      · subst hc
        exact digitChar_isDigit _ (Nat.mod_lt _ (by decide))

theorem numeralValue_append_singleton (cs : List Char) (c : Char) :
    numeralValue (cs ++ [c]) = 10 * numeralValue cs + (c.toNat - 48) := by
  simp [numeralValue, List.foldl_append]

theorem toDigitsCore_value (fuel : Nat) : ∀ (n : Nat), n < fuel →
    numeralValue (Nat.toDigitsCore 10 fuel n []) = n := by
  induction fuel with
  | zero => intro n hn; omega
  | succ fuel ih =>
    intro n hn
    simp only [Nat.toDigitsCore]
    split
    · next h0 =>
      have hlt : n < 10 := by omega
      have : n % 10 = n := Nat.mod_eq_of_lt hlt
      rw [this]
      simp [numeralValue, digitChar_value n hlt]
    · next h0 =>
      rw [toDigitsCore_acc, numeralValue_append_singleton, ih (n / 10) (by omega),
        digitChar_value _ (Nat.mod_lt _ (by decide))]
      omega

theorem toString_data (n : Nat) : (toString n).data = Nat.toDigits 10 n := rfl

theorem toString_isDigit (n : Nat) (c : Char) (hc : c ∈ (toString n).data) :
    c.isDigit = true :=
  toDigitsCore_isDigit _ _ _ hc

theorem toString_data_inj {n m : Nat} (h : (toString n).data = (toString m).data) : n = m := by
  have hn := toDigitsCore_value (n + 1) n (by omega)
  have hm := toDigitsCore_value (m + 1) m (by omega)
  rw [toString_data, toString_data] at h
  unfold Nat.toDigits at h
  rw [h] at hn
  omega

/-! ## Splitting a string -/

theorem digits_append_inj : ∀ (d d' r r' : List Char),
    (∀ c ∈ d, c.isDigit = true) → (∀ c ∈ d', c.isDigit = true) →
    NoDigitHead r → NoDigitHead r' → d ++ r = d' ++ r' → d = d' ∧ r = r' := by
  intro d
  induction d with
  | nil =>
    intro d' r r' _ hd' hr _ h
    cases d' with
    | nil => exact ⟨rfl, by simpa using h⟩
    | cons a d' =>
      exfalso
      simp only [List.nil_append, List.cons_append] at h
      have h1 := hr a (by rw [h]; rfl)
      have h2 := hd' a (List.mem_cons_self _ _)
      rw [h1] at h2
      exact Bool.noConfusion h2
  | cons a d ih =>
    intro d' r r' hd hd' hr hr' h
    cases d' with
    | nil =>
      exfalso
      simp only [List.nil_append, List.cons_append] at h
      have h1 := hr' a (by rw [← h]; rfl)
      have h2 := hd a (List.mem_cons_self _ _)
      rw [h1] at h2
      exact Bool.noConfusion h2
    | cons b d' =>
      simp only [List.cons_append, List.cons.injEq] at h
      obtain ⟨hab, ht⟩ := h
      obtain ⟨h1, h2⟩ := ih d' r r' (fun c hc => hd c (List.mem_cons_of_mem _ hc))
        (fun c hc => hd' c (List.mem_cons_of_mem _ hc)) hr hr' ht
      exact ⟨by rw [hab, h1], h2⟩

theorem split_at_first (a : Char) : ∀ (x x' r r' : List Char),
    a ∉ x → a ∉ x' → x ++ a :: r = x' ++ a :: r' → x = x' ∧ r = r' := by
  intro x
  induction x with
  | nil =>
    intro x' r r' _ hx' h
    cases x' with
    | nil => exact ⟨rfl, by simpa using h⟩
    | cons b x' =>
      exfalso
      simp only [List.nil_append, List.cons_append, List.cons.injEq] at h
      exact hx' (by rw [h.1]; exact List.mem_cons_self _ _)
  | cons b x ih =>
    intro x' r r' hx hx' h
    cases x' with
    | nil =>
      exfalso
      simp only [List.nil_append, List.cons_append, List.cons.injEq] at h
      exact hx (by rw [← h.1]; exact List.mem_cons_self _ _)
    | cons b' x' =>
      simp only [List.cons_append, List.cons.injEq] at h
      obtain ⟨h1, h2⟩ := ih x' r r' (fun hm => hx (List.mem_cons_of_mem _ hm))
        (fun hm => hx' (List.mem_cons_of_mem _ hm)) h.2
      exact ⟨by rw [h.1, h1], h2⟩

theorem index_data (image : Image) (options : Options) :
    (index image options).data =
      'b' :: '=' :: (image.Bucket.data ++ 'k' :: '=' :: (image.Key.data ++ optionChars options)) := by
  obtain ⟨w, h, c⟩ := options
  have hb : ("b=" : String).data = ['b', '='] := rfl
  have hk : ("k=" : String).data = ['k', '='] := rfl
  have hw : ("w=" : String).data = ['w', '='] := rfl
  have hh : ("h=" : String).data = ['h', '='] := rfl
  have hc : ("c=" : String).data = ['c', '='] := rfl
  cases w <;> cases h <;> cases c <;>
    simp only [index, optionChars, numChars, cropChars, truthyNum, truthyStr, numStr, strStr] <;>
    (repeat' split) <;>
    simp_all [String.data_append]

theorem cropChars_inj (c c' : Option String) (hc : c ≠ some "") (hc' : c' ≠ some "")
    (h : cropChars c = cropChars c') : c = c' := by
  cases c with
  | none =>
    cases c' with
    | none => rfl
    | some s' => simp_all [cropChars]
  | some s =>
    cases c' with
    | none => simp_all [cropChars]
    | some s' =>
      have hs : s ≠ "" := fun e => hc (by rw [e])
      have hs' : s' ≠ "" := fun e => hc' (by rw [e])
      simp only [cropChars, hs, hs', if_false, List.cons.injEq, true_and] at h
      rw [String.ext h]

theorem cropChars_noDigitHead (c : Option String) : NoDigitHead (cropChars c) := by
  intro a ha
  cases c with
  | none => simp [cropChars] at ha
  | some s =>
    simp only [cropChars] at ha
    split at ha
    · simp at ha
    · simp only [List.head?_cons, Option.some.injEq] at ha
      subst ha
      decide

theorem numChars_append_noDigitHead (tag : Char) (htag : tag.isDigit = false) (n : Option Nat)
    (r : List Char) (hr : NoDigitHead r) : NoDigitHead (numChars tag n ++ r) := by
  intro a ha
  cases n with
  | none => exact hr a (by simpa [numChars] using ha)
  | some k =>
    simp only [numChars] at ha
    split at ha
    · exact hr a (by simpa using ha)
    · simp only [List.cons_append, List.head?_cons, Option.some.injEq] at ha
      subst ha
      exact htag

theorem numChars_append_inj (tag : Char) (n n' : Option Nat)
    (r r' : List Char) (hn : n ≠ some 0) (hn' : n' ≠ some 0)
    (hr : NoDigitHead r) (hr' : NoDigitHead r')
    (hhead : ∀ a, r.head? = some a → a ≠ tag) (hhead' : ∀ a, r'.head? = some a → a ≠ tag)
    (h : numChars tag n ++ r = numChars tag n' ++ r') : n = n' ∧ r = r' := by
  cases n with
  | none =>
    cases n' with
    | none => exact ⟨rfl, by simpa [numChars] using h⟩
    | some k' =>
      exfalso
      have hk' : k' ≠ 0 := fun e => hn' (by rw [e])
      simp only [numChars, hk', if_false, List.nil_append, List.cons_append] at h
      exact hhead tag (by rw [h]; rfl) rfl
  | some k =>
    have hk : k ≠ 0 := fun e => hn (by rw [e])
    cases n' with
    | none =>
      exfalso
      simp only [numChars, hk, if_false, List.nil_append, List.cons_append] at h
      exact hhead' tag (by rw [← h]; rfl) rfl
    | some k' =>
      have hk' : k' ≠ 0 := fun e => hn' (by rw [e])
      simp only [numChars, hk, hk', if_false, List.cons_append, List.cons.injEq, true_and] at h
      obtain ⟨h1, h2⟩ := digits_append_inj _ _ r r' (toString_isDigit k) (toString_isDigit k')
        hr hr' h
      exact ⟨by rw [toString_data_inj h1], h2⟩

theorem optionChars_inj (o o' : Options)
    (hw : o.width ≠ some 0) (hh : o.height ≠ some 0) (hc : o.crop ≠ some "")
    (hw' : o'.width ≠ some 0) (hh' : o'.height ≠ some 0) (hc' : o'.crop ≠ some "")
    (h : optionChars o = optionChars o') : o = o' := by
  obtain ⟨w, ht, c⟩ := o
  obtain ⟨w', ht', c'⟩ := o'
  simp only [optionChars] at h
  have hcrop_head : ∀ (x : Option String) (t : Char), t ≠ 'c' →
      ∀ a, (cropChars x).head? = some a → a ≠ t := by
    intro x t htc a ha
    cases x with
    | none => simp [cropChars] at ha
    | some s =>
      simp only [cropChars] at ha
      split at ha
      · simp at ha
      · simp only [List.head?_cons, Option.some.injEq] at ha
        subst ha
        exact fun e => htc e.symm
  have hhc_head : ∀ (n : Option Nat) (x : Option String),
      ∀ a, (numChars 'h' n ++ cropChars x).head? = some a → a ≠ 'w' := by
    intro n x a ha
    cases n with
    | none => exact hcrop_head x 'w' (by decide) a (by simpa [numChars] using ha)
    | some k =>
      simp only [numChars] at ha
      split at ha
      · exact hcrop_head x 'w' (by decide) a (by simpa using ha)
      · simp only [List.cons_append, List.head?_cons, Option.some.injEq] at ha
        subst ha
        decide
  obtain ⟨e1, h1⟩ := numChars_append_inj 'w' w w' _ _ hw hw'
    (numChars_append_noDigitHead 'h' (by decide) ht _ (cropChars_noDigitHead c))
    (numChars_append_noDigitHead 'h' (by decide) ht' _ (cropChars_noDigitHead c'))
    (hhc_head ht c) (hhc_head ht' c') h
  obtain ⟨e2, h2⟩ := numChars_append_inj 'h' ht ht' _ _ hh hh'
    (cropChars_noDigitHead c) (cropChars_noDigitHead c')
    (hcrop_head c 'h' (by decide)) (hcrop_head c' 'h' (by decide)) h1
  have e3 := cropChars_inj c c' hc hc' h2
  simp only at e1 e2 e3
  rw [e1, e2, e3]

theorem WellFormed.truthy {o : Options} (h : o.WellFormed) :
    o.width ≠ some 0 ∧ o.height ≠ some 0 ∧ o.crop ≠ some "" := by
  obtain ⟨h1, h2, h3⟩ := h
  refine ⟨fun e => ?_, fun e => ?_, fun e => ?_⟩
  · exact absurd (h1 0 e) (by decide)
  · exact absurd (h2 0 e) (by decide)
  · rcases h3 "" e with h | h <;> exact absurd h (by decide)

theorem index_options_inj (image : Image) (o o' : Options)
    (hw : o.width ≠ some 0) (hh : o.height ≠ some 0) (hc : o.crop ≠ some "")
    (hw' : o'.width ≠ some 0) (hh' : o'.height ≠ some 0) (hc' : o'.crop ≠ some "")
    (h : index image o = index image o') : o = o' := by
  have hd := congrArg String.data h
  rw [index_data, index_data] at hd
  simp only [List.cons.injEq, true_and, List.append_cancel_left_eq] at hd
  exact optionChars_inj o o' hw hh hc hw' hh' hc' hd

theorem optionChars_shape (o : Options) :
    optionChars o = [] ∨ ∃ t rest, optionChars o = t :: '=' :: rest ∧ t ≠ '=' := by
  obtain ⟨w, h, c⟩ := o
  simp only [optionChars]
  cases w with
  | some k =>
    by_cases hk : k = 0
    · subst hk
      cases h with
      | some m =>
        by_cases hm : m = 0
        · subst hm
          cases c with
          | some s =>
            by_cases hs : s = ""
            · left; simp [numChars, cropChars, hs]
            · right; exact ⟨'c', s.data, by simp [numChars, cropChars, hs], by decide⟩
          | none => left; simp [numChars, cropChars]
        · right; exact ⟨'h', _, by simp [numChars, hm]; rfl, by decide⟩
      | none =>
        cases c with
        | some s =>
          by_cases hs : s = ""
          · left; simp [numChars, cropChars, hs]
          · right; exact ⟨'c', s.data, by simp [numChars, cropChars, hs], by decide⟩
        | none => left; simp [numChars, cropChars]
    · right; exact ⟨'w', _, by simp [numChars, hk]; rfl, by decide⟩
  | none =>
    cases h with
    | some m =>
      by_cases hm : m = 0
      · subst hm
        cases c with
        | some s =>
          by_cases hs : s = ""
          · left; simp [numChars, cropChars, hs]
          · right; exact ⟨'c', s.data, by simp [numChars, cropChars, hs], by decide⟩
        | none => left; simp [numChars, cropChars]
      · right; exact ⟨'h', _, by simp [numChars, hm]; rfl, by decide⟩
    | none =>
      cases c with
      | some s =>
        by_cases hs : s = ""
        · left; simp [numChars, cropChars, hs]
        · right; exact ⟨'c', s.data, by simp [numChars, cropChars, hs], by decide⟩
      | none => left; simp [numChars, cropChars]

theorem key_append_inj (k k' : List Char) (o o' : Options)
    (hk : '=' ∉ k) (hk' : '=' ∉ k') (h : k ++ optionChars o = k' ++ optionChars o') :
    k = k' := by
  rcases optionChars_shape o with e | ⟨t, rest, e, ht⟩ <;>
    rcases optionChars_shape o' with e' | ⟨t', rest', e', ht'⟩ <;>
    rw [e, e'] at h
  · simpa using h
  · exfalso
    apply hk
    rw [List.append_nil] at h
    rw [h]
    simp
  · exfalso
    apply hk'
    rw [List.append_nil] at h
    rw [← h]
    simp
  · have h2 : (k ++ [t]) ++ '=' :: rest = (k' ++ [t']) ++ '=' :: rest' := by simpa using h
    have hn : '=' ∉ k ++ [t] := by
      simp only [List.mem_append, List.mem_singleton, not_or]
      exact ⟨hk, fun e => ht e.symm⟩
    have hn' : '=' ∉ k' ++ [t'] := by
      simp only [List.mem_append, List.mem_singleton, not_or]
      exact ⟨hk', fun e => ht' e.symm⟩
    obtain ⟨h3, _⟩ := split_at_first '=' _ _ _ _ hn hn' h2
    exact (List.append_inj' h3 rfl).1

/-- C2, as stated, fails: the image with key `a.pngw=100` and no options and
the image with key `a.png` and width 100, both in bucket `imgs`, are distinct
inputs of the stated kind with the same index `b=imgsk=a.pngw=100`; and with
the same options, all three present, the images `a`/`k=b` and `ak=`/`b` have
the same index. -/
theorem index_collision :
    index ⟨"imgs", "a.pngw=100"⟩ ⟨none, none, none⟩ = "b=imgsk=a.pngw=100" ∧
    index ⟨"imgs", "a.png"⟩ ⟨some 100, none, none⟩ = "b=imgsk=a.pngw=100" ∧
    (⟨"imgs", "a.pngw=100"⟩ : Image) ≠ ⟨"imgs", "a.png"⟩ ∧
    (⟨none, none, none⟩ : Options) ≠ ⟨some 100, none, none⟩ ∧
    Options.WellFormed ⟨none, none, none⟩ ∧ Options.WellFormed ⟨some 100, none, none⟩ ∧
    index ⟨"a", "k=b"⟩ ⟨some 100, some 50, some "North"⟩ =
      index ⟨"ak=", "b"⟩ ⟨some 100, some 50, some "North"⟩ ∧
    (⟨"a", "k=b"⟩ : Image) ≠ ⟨"ak=", "b"⟩ ∧
    Options.WellFormed ⟨some 100, some 50, some "North"⟩ := by
  refine ⟨by decide, by decide, by decide, by decide, ?_, ?_, by decide, by decide, ?_⟩ <;>
    simp [Options.WellFormed]

/-- C2, amended: when no bucket and no key contains the character `=`, two
inputs with positive widths and heights and crops among `Center` and `North`
that have the same index are the same image and the same options. -/
theorem index_injective (image1 image2 : Image) (options1 options2 : Options)
    (hwf1 : options1.WellFormed) (hwf2 : options2.WellFormed)
    (hb1 : '=' ∉ image1.Bucket.toList) (hk1 : '=' ∉ image1.Key.toList)
    (hb2 : '=' ∉ image2.Bucket.toList) (hk2 : '=' ∉ image2.Key.toList)
    (h : index image1 options1 = index image2 options2) :
    image1 = image2 ∧ options1 = options2 := by
  obtain ⟨b1, k1⟩ := image1
  obtain ⟨b2, k2⟩ := image2
  simp only [String.toList] at hb1 hk1 hb2 hk2
  have hd := congrArg String.data h
  rw [index_data, index_data] at hd
  simp only [List.cons.injEq, true_and] at hd
  have hd2 : (b1.data ++ ['k']) ++ '=' :: (k1.data ++ optionChars options1) =
      (b2.data ++ ['k']) ++ '=' :: (k2.data ++ optionChars options2) := by simpa using hd
  have hn1 : '=' ∉ b1.data ++ ['k'] := by
    simp only [List.mem_append, List.mem_singleton, not_or]
    exact ⟨hb1, by decide⟩
  have hn2 : '=' ∉ b2.data ++ ['k'] := by
    simp only [List.mem_append, List.mem_singleton, not_or]
    exact ⟨hb2, by decide⟩
  obtain ⟨hB, hR⟩ := split_at_first '=' _ _ _ _ hn1 hn2 hd2
  have hb : b1 = b2 := String.ext (List.append_inj' hB rfl).1
  have hk : k1 = k2 := String.ext (key_append_inj _ _ _ _ hk1 hk2 hR)
  subst hb
  subst hk
  obtain ⟨w1, g1, c1⟩ := WellFormed.truthy hwf1
  obtain ⟨w2, g2, c2⟩ := WellFormed.truthy hwf2
  exact ⟨rfl, index_options_inj _ _ _ w1 g1 c1 w2 g2 c2 h⟩

/-- The amended C2 at the images `imgs/a.png` and `imgs/a.png`, width 100 and
crop `Center`. -/
theorem index_injective_witness :
    (⟨"imgs", "a.png"⟩ : Image) = ⟨"imgs", "a.png"⟩ ∧
    (⟨some 100, none, some "Center"⟩ : Options) = ⟨some 100, none, some "Center"⟩ :=
  index_injective ⟨"imgs", "a.png"⟩ ⟨"imgs", "a.png"⟩
    ⟨some 100, none, some "Center"⟩ ⟨some 100, none, some "Center"⟩
    ⟨by simp, by simp, by simp⟩ ⟨by simp, by simp, by simp⟩
    (by decide) (by decide) (by decide) (by decide) rfl

/-- C3: for a fixed image and options with positive width and height and a
crop among `Center` and `North`, giving a present option a different value of
its kind changes the index, and so does removing a present option. -/
theorem index_sensitive (image : Image) (options : Options) (hwf : options.WellFormed) :
    (∀ w w', options.width = some w → 0 < w' → w' ≠ w →
      index image { options with width := some w' } ≠ index image options) ∧
    (∀ h h', options.height = some h → 0 < h' → h' ≠ h →
      index image { options with height := some h' } ≠ index image options) ∧
    (∀ c c', options.crop = some c → (c' = "Center" ∨ c' = "North") → c' ≠ c →
      index image { options with crop := some c' } ≠ index image options) ∧
    (∀ w, options.width = some w →
      index image { options with width := none } ≠ index image options) ∧
    (∀ h, options.height = some h →
      index image { options with height := none } ≠ index image options) ∧
    (∀ c, options.crop = some c →
      index image { options with crop := none } ≠ index image options) := by
  obtain ⟨tw, th, tc⟩ := WellFormed.truthy hwf
  obtain ⟨w0, h0, c0⟩ := options
  simp only at tw th tc
  refine ⟨?_, ?_, ?_, ?_, ?_, ?_⟩
  · intro w w' hw hpos hne heq
    simp only at hw
    have := index_options_inj image _ _ (by simp; omega) th tc tw th tc heq
    simp only [Options.mk.injEq, and_true] at this
    rw [hw] at this
    exact hne (Option.some.inj this)
  · intro h h' hh hpos hne heq
    simp only at hh
    have := index_options_inj image _ _ tw (by simp; omega) tc tw th tc heq
    simp only [Options.mk.injEq, and_true, true_and] at this
    rw [hh] at this
    exact hne (Option.some.inj this)
  · intro c c' hc hval hne heq
    simp only at hc
    have hc' : some c' ≠ some "" := by
      rcases hval with e | e <;> rw [e] <;> decide
    have := index_options_inj image _ _ tw th hc' tw th tc heq
    simp only [Options.mk.injEq, true_and] at this
    rw [hc] at this
    exact hne (Option.some.inj this)
  · intro w hw heq
    simp only at hw
    have := index_options_inj image _ _ (by simp) th tc tw th tc heq
    simp only [Options.mk.injEq, and_true] at this
    rw [hw] at this
    exact Option.noConfusion this
  · intro h hh heq
    simp only at hh
    have := index_options_inj image _ _ tw (by simp) tc tw th tc heq
    simp only [Options.mk.injEq, and_true, true_and] at this
    rw [hh] at this
    exact Option.noConfusion this
  · intro c hc heq
    simp only at hc
    have := index_options_inj image _ _ tw th (by simp) tw th tc heq
    simp only [Options.mk.injEq, true_and] at this
    rw [hc] at this
    exact Option.noConfusion this

/-- C3 at the image `imgs/a.png` with width 100 and crop `Center`: width 200
gives another index, and so does leaving the crop out. -/
theorem index_sensitive_witness :
    index ⟨"imgs", "a.png"⟩ ⟨some 200, none, some "Center"⟩ ≠
      index ⟨"imgs", "a.png"⟩ ⟨some 100, none, some "Center"⟩ ∧
    index ⟨"imgs", "a.png"⟩ ⟨some 100, none, none⟩ ≠
      index ⟨"imgs", "a.png"⟩ ⟨some 100, none, some "Center"⟩ :=
  have h := index_sensitive ⟨"imgs", "a.png"⟩ ⟨some 100, none, some "Center"⟩
    ⟨by simp, by simp, by simp⟩
  ⟨h.1 100 200 rfl (by decide) (by decide), h.2.2.2.2.2 "Center" rfl⟩

/-! ## Items -/

theorem getField_setField_same (item : Item) (name : String) (v : Attr) :
    getField (setField item name v) name = some v := by
  induction item with
  | nil => simp [setField, getField]
  | cons p rest ih =>
    obtain ⟨k, b⟩ := p
    by_cases hk : k = name
    · simp [setField, getField, hk]
    · simp [setField, getField, hk, ih]

theorem getField_setField_ne (item : Item) (name other : String) (v : Attr)
    (h : other ≠ name) : getField (setField item name v) other = getField item other := by
  have h' : ¬ name = other := fun e => h e.symm
  induction item with
  | nil => simp [setField, getField, h']
  | cons p rest ih =>
    obtain ⟨k, b⟩ := p
    by_cases hk : k = name
    · subst hk
      simp [setField, getField, h']
    · by_cases hko : k = other
      · subst hko
        simp [setField, getField, hk]
      · simp [setField, getField, hk, hko, ih]

theorem assemble_index (image : Image) (thumb : Thumb) (options : Options) (data : Data) :
    getField (assemble image thumb options data) "Index" = some (.S (some (index image options))) := by
  simp only [assemble]
  repeat' split
  all_goals simp [setField, getField]

theorem assemble_fields (image : Image) (thumb : Thumb) (options : Options) (data : Data) :
    assemble image thumb options data =
      [("Index", .S (some (index image options))),
       ("ImageBucket", .S (some image.Bucket)),
       ("ImageKey", .S (some image.Key)),
       ("ImageETag", .S data.imageETag),
       ("ThumbBucket", .S thumb.Bucket),
       ("ThumbKey", .S thumb.Key),
       ("ThumbContentType", .S data.thumbType)] ++
      (if truthyNum options.width then [("Width", .N (numStr options.width))] else []) ++
      (if truthyNum options.height then [("Height", .N (numStr options.height))] else []) ++
      (if truthyStr options.crop then [("Crop", .S options.crop)] else []) := by
  simp only [assemble]
  repeat' split
  all_goals simp [setField]

/-! ## The six ways `create` ends -/

theorem create_request_error (env : Env) (store : Store) (image : Image) (thumb : Thumb)
    (options : Options) (err : Err)
    (hreq : env.request (requestUri env.config image thumb options) = .error err) :
    create env store image thumb options =
      ⟨.callback (some err) none,
       [Event.create image thumb options,
        Event.request (requestUri env.config image thumb options)], store⟩ := by
  simp [create, hreq]

theorem create_bad_status (env : Env) (store : Store) (image : Image) (thumb : Thumb)
    (options : Options) (statusCode : Nat) (body : String)
    (hreq : env.request (requestUri env.config image thumb options) = .ok (statusCode, body))
    (hstatus : statusCode ≠ 200) :
    create env store image thumb options =
      ⟨.callback (some ⟨"s3 thumbnail API request error: " ++ toString statusCode⟩) none,
       [Event.create image thumb options,
        Event.request (requestUri env.config image thumb options)], store⟩ := by
  simp [create, hreq, hstatus]

theorem create_unparsable (env : Env) (store : Store) (image : Image) (thumb : Thumb)
    (options : Options) (body : String)
    (hreq : env.request (requestUri env.config image thumb options) = .ok (200, body))
    (hparse : env.jsonParse body = none) :
    create env store image thumb options =
      ⟨.threw .syntaxError,
       [Event.create image thumb options,
        Event.request (requestUri env.config image thumb options)], store⟩ := by
  simp [create, hreq, hparse]

theorem create_null (env : Env) (store : Store) (image : Image) (thumb : Thumb)
    (options : Options) (body : String)
    (hreq : env.request (requestUri env.config image thumb options) = .ok (200, body))
    (hparse : env.jsonParse body = some .null) :
    create env store image thumb options =
      ⟨.threw .typeError,
       [Event.create image thumb options,
        Event.request (requestUri env.config image thumb options)], store⟩ := by
  simp [create, hreq, hparse]

theorem create_put_error (env : Env) (store : Store) (image : Image) (thumb : Thumb)
    (options : Options) (body : String) (data : Data) (err : Err)
    (hreq : env.request (requestUri env.config image thumb options) = .ok (200, body))
    (hparse : env.jsonParse body = some (.value data)) (hput : env.putItemErr = some err) :
    create env store image thumb options =
      ⟨.callback (some err) none,
       [Event.create image thumb options,
        Event.request (requestUri env.config image thumb options),
        Event.putItem env.config.TABLE (assemble image thumb options data)], store⟩ := by
  simp [create, hreq, hparse, hput]

theorem create_success (env : Env) (store : Store) (image : Image) (thumb : Thumb)
    (options : Options) (body : String) (data : Data)
    (hreq : env.request (requestUri env.config image thumb options) = .ok (200, body))
    (hparse : env.jsonParse body = some (.value data)) (hput : env.putItemErr = none) :
    create env store image thumb options =
      ⟨.callback none (some (assemble image thumb options data)),
       [Event.create image thumb options,
        Event.request (requestUri env.config image thumb options),
        Event.putItem env.config.TABLE (assemble image thumb options data)],
       (index image options, assemble image thumb options data) ::
         store.filter (fun p => p.1 != index image options)⟩ := by
  simp [create, hreq, hparse, hput, Store.put, assemble_index]

/-- A record reaches the callback of `create` only on the last path. -/
theorem create_success_inv (env : Env) (store : Store) (image : Image) (thumb : Thumb)
    (options : Options) (item : Item)
    (h : (create env store image thumb options).outcome = .callback none (some item)) :
    ∃ body data, env.request (requestUri env.config image thumb options) = .ok (200, body) ∧
      env.jsonParse body = some (.value data) ∧ env.putItemErr = none ∧
      item = assemble image thumb options data := by
  cases hreq : env.request (requestUri env.config image thumb options) with
  | error err => rw [create_request_error _ _ _ _ _ _ hreq] at h; simp at h
  | ok p =>
    obtain ⟨statusCode, body⟩ := p
    by_cases hs : statusCode = 200
    · subst hs
      cases hparse : env.jsonParse body with
      | none => rw [create_unparsable _ _ _ _ _ _ hreq hparse] at h; simp at h
      | some parsed =>
        cases parsed with
        | null => rw [create_null _ _ _ _ _ _ hreq hparse] at h; simp at h
        | value data =>
        cases hput : env.putItemErr with
        | some err => rw [create_put_error _ _ _ _ _ _ _ _ hreq hparse hput] at h; simp at h
        | none =>
          rw [create_success _ _ _ _ _ _ _ hreq hparse hput] at h
          simp only [Outcome.callback.injEq, Option.some.injEq, true_and] at h
          exact ⟨body, data, rfl, hparse, rfl, h.symm⟩
    · rw [create_bad_status _ _ _ _ _ _ _ hreq hs] at h; simp at h

/-- The calls `create` makes: the request, and afterwards at most the write. -/
theorem create_trace (env : Env) (store : Store) (image : Image) (thumb : Thumb)
    (options : Options) :
    ∃ tail, (create env store image thumb options).trace =
        Event.create image thumb options ::
          Event.request (requestUri env.config image thumb options) :: tail ∧
      (tail = [] ∨ ∃ item, tail = [Event.putItem env.config.TABLE item]) := by
  cases hreq : env.request (requestUri env.config image thumb options) with
  | error err => exact ⟨[], by rw [create_request_error _ _ _ _ _ _ hreq], Or.inl rfl⟩
  | ok p =>
    obtain ⟨statusCode, body⟩ := p
    by_cases hs : statusCode = 200
    · subst hs
      cases hparse : env.jsonParse body with
      | none => exact ⟨[], by rw [create_unparsable _ _ _ _ _ _ hreq hparse], Or.inl rfl⟩
      | some parsed =>
        cases parsed with
        | null => exact ⟨[], by rw [create_null _ _ _ _ _ _ hreq hparse], Or.inl rfl⟩
        | value data =>
        cases hput : env.putItemErr with
        | some err =>
          exact ⟨_, by rw [create_put_error _ _ _ _ _ _ _ _ hreq hparse hput], Or.inr ⟨_, rfl⟩⟩
        | none =>
          exact ⟨_, by rw [create_success _ _ _ _ _ _ _ hreq hparse hput], Or.inr ⟨_, rfl⟩⟩
    · exact ⟨[], by rw [create_bad_status _ _ _ _ _ _ _ hreq hs], Or.inl rfl⟩

theorem create_trace_filters (env : Env) (store : Store) (image : Image) (thumb : Thumb)
    (options : Options) :
    (create env store image thumb options).trace.filter Event.isCreate =
        [Event.create image thumb options] ∧
      (create env store image thumb options).trace.filter Event.isHeadObject = [] ∧
      (create env store image thumb options).trace.filter Event.isUuid = [] := by
  obtain ⟨tail, htrace, htail⟩ := create_trace env store image thumb options
  rw [htrace]
  rcases htail with e | ⟨item, e⟩ <;> subst e <;>
    simp [List.filter, Event.isCreate, Event.isHeadObject, Event.isUuid]

theorem tagStatus_trace (status : String) (r : Result) (before : List Event) :
    (tagStatus status r before).trace = before ++ r.trace := by
  unfold tagStatus
  split <;> rfl

theorem tagStatus_store (status : String) (r : Result) (before : List Event) :
    (tagStatus status r before).store = r.store := by
  unfold tagStatus
  split <;> rfl

/-! ## The three paths of `cache` -/

theorem cache_refresh_eq (env : Env) (store : Store) (image : Image) (options : Options)
    (record : Item) (etag : String) (stored : Attr) (tb tk : String)
    (hget : env.getItemErr = none)
    (hrec : store.get (index image options) = some record)
    (hhead : env.headObject image = .ok etag)
    (hstored : getField record "ImageETag" = some stored)
    (hne : stored.getS ≠ some etag)
    (htb : getField record "ThumbBucket" = some (.S (some tb)))
    (htk : getField record "ThumbKey" = some (.S (some tk))) :
    cache env store image options =
      tagStatus "updated" (create env store image ⟨some tb, some tk⟩ options)
        [Event.getItem env.config.TABLE (index image options), Event.headObject image] := by
  have hne' : ¬ some etag = stored.getS := fun e => hne e.symm
  simp only [cache, hget, hrec, hhead, hstored, hne', if_false, htb, htk]
  rfl

theorem cache_no_record_eq (env : Env) (store : Store) (image : Image) (options : Options)
    (hget : env.getItemErr = none)
    (hnone : store.get (index image options) = none) :
    cache env store image options =
      tagStatus "added" (create env store image ⟨some env.config.BUCKET, some env.uuid⟩ options)
        [Event.getItem env.config.TABLE (index image options), Event.uuid] := by
  simp [cache, hget, hnone]

theorem cache_unchanged_eq (env : Env) (store : Store) (image : Image) (options : Options)
    (record : Item) (etag : String) (stored : Attr)
    (hget : env.getItemErr = none)
    (hrec : store.get (index image options) = some record)
    (hhead : env.headObject image = .ok etag)
    (hstored : getField record "ImageETag" = some stored)
    (heq : stored.getS = some etag) :
    cache env store image options =
      ⟨.callback none (some (setField record "Status" (.S (some "cached")))),
       [Event.getItem env.config.TABLE (index image options), Event.headObject image],
       store⟩ := by
  simp [cache, hget, hrec, hhead, hstored, heq]

theorem tagStatus_success (status : String) (r : Result) (before : List Event) (item : Item)
    (h : r.outcome = .callback none (some item)) :
    (tagStatus status r before).outcome =
      .callback none (some (setField item "Status" (.S (some status)))) := by
  simp [tagStatus, h]

/-- C4, as stated, fails on the status: on the refresh path (stored
fingerprint `e1`, current fingerprint `e2`, rendering succeeds) the record
handed to the callback has `Status` `updated`, not `refreshed`. -/
theorem refresh_status_is_updated :
    sampleStore.get (index sampleImage sampleOptions) = some sampleRecord ∧
    getField sampleRecord "ImageETag" = some (.S (some "e1")) ∧
    (sampleEnv "e2" 200 "e2.json").headObject sampleImage = .ok "e2" ∧
    (cache (sampleEnv "e2" 200 "e2.json") sampleStore sampleImage sampleOptions).status =
      some (.S (some "updated")) ∧
    (cache (sampleEnv "e2" 200 "e2.json") sampleStore sampleImage sampleOptions).status ≠
      some (.S (some "refreshed")) :=
  ⟨by decide, by decide, rfl, by decide, by decide⟩

/-- C4, amended in the status only: when the table holds a record for
`index(image, options)` and the fingerprint of the request's image differs from
the record's `ImageETag`, `create` is entered exactly once, with the record's
`ThumbBucket` and `ThumbKey` as destination (no identifier is generated) and
with the request's options; when `create` succeeds the record handed to the
callback has those `ThumbBucket` and `ThumbKey` and `Status` `updated`. -/
theorem cache_refresh (env : Env) (store : Store) (image : Image) (options : Options)
    (record : Item) (etag : String) (stored : Attr) (tb tk : String)
    (hget : env.getItemErr = none)
    (hrec : store.get (index image options) = some record)
    (hhead : env.headObject image = .ok etag)
    (hstored : getField record "ImageETag" = some stored)
    (hne : stored.getS ≠ some etag)
    (htb : getField record "ThumbBucket" = some (.S (some tb)))
    (htk : getField record "ThumbKey" = some (.S (some tk))) :
    (cache env store image options).trace.filter Event.isCreate =
        [Event.create image ⟨some tb, some tk⟩ options] ∧
    (cache env store image options).trace.filter Event.isUuid = [] ∧
    ∀ item, (create env store image ⟨some tb, some tk⟩ options).outcome =
        .callback none (some item) →
      (cache env store image options).outcome =
        .callback none (some (setField item "Status" (.S (some "updated")))) ∧
      getField (setField item "Status" (.S (some "updated"))) "ThumbBucket" =
        getField record "ThumbBucket" ∧
      getField (setField item "Status" (.S (some "updated"))) "ThumbKey" =
        getField record "ThumbKey" ∧
      getField (setField item "Status" (.S (some "updated"))) "Status" =
        some (.S (some "updated")) := by
  rw [cache_refresh_eq env store image options record etag stored tb tk hget hrec hhead hstored
    hne htb htk]
  obtain ⟨hc, _, hu⟩ := create_trace_filters env store image ⟨some tb, some tk⟩ options
  refine ⟨?_, ?_, ?_⟩
  · rw [tagStatus_trace, List.filter_append, hc]
    simp [List.filter, Event.isCreate]
  · rw [tagStatus_trace, List.filter_append, hu]
    simp [List.filter, Event.isUuid]
  · intro item hitem
    obtain ⟨body, data, _, _, _, hasm⟩ := create_success_inv _ _ _ _ _ _ hitem
    refine ⟨tagStatus_success _ _ _ _ hitem, ?_, ?_, getField_setField_same _ _ _⟩
    · rw [getField_setField_ne _ _ _ _ (by decide), htb, hasm, assemble_fields]
      simp [getField]
    · rw [getField_setField_ne _ _ _ _ (by decide), htk, hasm, assemble_fields]
      simp [getField]

/-- The amended C4 in the scenario: stored fingerprint `e1`, current
fingerprint `e2`, destination `thumbs`/`uuid-1`. -/
theorem cache_refresh_witness :
    (cache (sampleEnv "e2" 200 "e2.json") sampleStore sampleImage sampleOptions).trace.filter
        Event.isCreate = [Event.create sampleImage ⟨some "thumbs", some "uuid-1"⟩ sampleOptions] ∧
    (create (sampleEnv "e2" 200 "e2.json") sampleStore sampleImage ⟨some "thumbs", some "uuid-1"⟩
        sampleOptions).outcome =
      .callback none (some (assemble sampleImage ⟨some "thumbs", some "uuid-1"⟩ sampleOptions
        ⟨some "e2", some "image/png"⟩)) :=
  ⟨(cache_refresh (sampleEnv "e2" 200 "e2.json") sampleStore sampleImage sampleOptions
      sampleRecord "e2" (.S (some "e1")) "thumbs" "uuid-1" rfl (by decide) rfl (by decide)
      (by decide) (by decide) (by decide)).1, by decide⟩

/-- C5, as stated, fails on the status: on the unchanged path (stored and
current fingerprint `e1`) the record handed to the callback has `Status`
`cached`, not `unchanged`. -/
theorem unchanged_status_is_cached :
    sampleStore.get (index sampleImage sampleOptions) = some sampleRecord ∧
    getField sampleRecord "ImageETag" = some (.S (some "e1")) ∧
    (sampleEnv "e1" 200 "e1.json").headObject sampleImage = .ok "e1" ∧
    (cache (sampleEnv "e1" 200 "e1.json") sampleStore sampleImage sampleOptions).status =
      some (.S (some "cached")) ∧
    (cache (sampleEnv "e1" 200 "e1.json") sampleStore sampleImage sampleOptions).status ≠
      some (.S (some "unchanged")) :=
  ⟨by decide, by decide, rfl, by decide, by decide⟩

/-- C5, amended in the status only: when the table holds a record for
`index(image, options)` and the fingerprint of the request's image equals the
record's `ImageETag`, `create` is not entered, `putItem` is not called, the
table is unchanged, and the callback gets the record with every attribute
other than `Status` as stored and with `Status` `cached`. -/
theorem cache_unchanged (env : Env) (store : Store) (image : Image) (options : Options)
    (record : Item) (etag : String) (stored : Attr)
    (hget : env.getItemErr = none)
    (hrec : store.get (index image options) = some record)
    (hhead : env.headObject image = .ok etag)
    (hstored : getField record "ImageETag" = some stored)
    (heq : stored.getS = some etag) :
    (cache env store image options).trace =
        [Event.getItem env.config.TABLE (index image options), Event.headObject image] ∧
    (cache env store image options).trace.filter Event.isCreate = [] ∧
    (cache env store image options).trace.filter Event.isPutItem = [] ∧
    (cache env store image options).store = store ∧
    (cache env store image options).outcome =
      .callback none (some (setField record "Status" (.S (some "cached")))) ∧
    (∀ name, name ≠ "Status" →
      getField (setField record "Status" (.S (some "cached"))) name = getField record name) ∧
    getField (setField record "Status" (.S (some "cached"))) "Status" =
      some (.S (some "cached")) := by
  rw [cache_unchanged_eq env store image options record etag stored hget hrec hhead hstored heq]
  refine ⟨rfl, ?_, ?_, rfl, rfl, ?_, getField_setField_same _ _ _⟩
  · simp [List.filter, Event.isCreate]
  · simp [List.filter, Event.isPutItem]
  · intro name hname
    exact getField_setField_ne _ _ _ _ hname

/-- The amended C5 in the scenario: stored and current fingerprint `e1`. -/
theorem cache_unchanged_witness :
    (cache (sampleEnv "e1" 200 "e1.json") sampleStore sampleImage sampleOptions).outcome =
      .callback none (some (setField sampleRecord "Status" (.S (some "cached")))) ∧
    (cache (sampleEnv "e1" 200 "e1.json") sampleStore sampleImage sampleOptions).store =
      sampleStore :=
  have h := cache_unchanged (sampleEnv "e1" 200 "e1.json") sampleStore sampleImage sampleOptions
    sampleRecord "e1" (.S (some "e1")) rfl (by decide) rfl (by decide) (by decide)
  ⟨h.2.2.2.2.1, h.2.2.2.1⟩

/-- C6, as stated, fails on the status: with an empty table the record
handed to the callback has `Status` `added`, not `created`. -/
theorem no_record_status_is_added :
    Store.get [] (index sampleImage sampleOptions) = none ∧
    (cache (sampleEnv "e1" 200 "e1.json") [] sampleImage sampleOptions).status =
      some (.S (some "added")) ∧
    (cache (sampleEnv "e1" 200 "e1.json") [] sampleImage sampleOptions).status ≠
      some (.S (some "created")) :=
  ⟨by decide, by decide, by decide⟩

/-- C6, amended in the status only: when the read succeeds and the table has
no record for `index(image, options)`, `s3.headObject` is not called, one
identifier is generated, `create` is entered exactly once with the configured
bucket and that identifier as destination; when `create` succeeds the record
it handed over is the one now in the table under `index(image, options)`, and
the callback gets it with `Status` `added`. -/
theorem cache_no_record (env : Env) (store : Store) (image : Image) (options : Options)
    (hget : env.getItemErr = none)
    (hnone : store.get (index image options) = none) :
    (cache env store image options).trace.filter Event.isHeadObject = [] ∧
    (cache env store image options).trace.filter Event.isUuid = [Event.uuid] ∧
    (cache env store image options).trace.filter Event.isCreate =
        [Event.create image ⟨some env.config.BUCKET, some env.uuid⟩ options] ∧
    ∀ item, (create env store image ⟨some env.config.BUCKET, some env.uuid⟩ options).outcome =
        .callback none (some item) →
      (cache env store image options).outcome =
        .callback none (some (setField item "Status" (.S (some "added")))) ∧
      (cache env store image options).store.get (index image options) = some item ∧
      (∀ name, name ≠ "Status" →
        getField (setField item "Status" (.S (some "added"))) name = getField item name) ∧
      getField (setField item "Status" (.S (some "added"))) "Status" =
        some (.S (some "added")) := by
  rw [cache_no_record_eq env store image options hget hnone]
  obtain ⟨hc, hh, hu⟩ :=
    create_trace_filters env store image ⟨some env.config.BUCKET, some env.uuid⟩ options
  refine ⟨?_, ?_, ?_, ?_⟩
  · rw [tagStatus_trace, List.filter_append, hh]
    simp [List.filter, Event.isHeadObject]
  · rw [tagStatus_trace, List.filter_append, hu]
    simp [List.filter, Event.isUuid]
  · rw [tagStatus_trace, List.filter_append, hc]
    simp [List.filter, Event.isCreate]
  · intro item hitem
    obtain ⟨body, data, hreq, hparse, hput, hasm⟩ := create_success_inv _ _ _ _ _ _ hitem
    refine ⟨tagStatus_success _ _ _ _ hitem, ?_,
      fun name hname => getField_setField_ne _ _ _ _ hname, getField_setField_same _ _ _⟩
    rw [tagStatus_store, create_success _ _ _ _ _ _ _ hreq hparse hput, hasm]
    simp [Store.get]

/-- The amended C6 in the scenario, on an empty table. -/
theorem cache_no_record_witness :
    (cache (sampleEnv "e1" 200 "e1.json") [] sampleImage sampleOptions).trace.filter
        Event.isCreate = [Event.create sampleImage ⟨some "thumbs", some "uuid-1"⟩ sampleOptions] ∧
    (create (sampleEnv "e1" 200 "e1.json") [] sampleImage ⟨some "thumbs", some "uuid-1"⟩
        sampleOptions).outcome = .callback none (some sampleRecord) :=
  ⟨(cache_no_record (sampleEnv "e1" 200 "e1.json") [] sampleImage sampleOptions rfl
      (by decide)).2.2.1, by decide⟩

/-! ## Failures -/

/-- C7 on the code: when the rendering capability answers with status 200
and a body that `JSON.parse` rejects, the exception escapes the request
callback and the callback of `create` is never invoked, where the claim has an
error handed to it with a `null` record; the same holds for the body `null`,
on which the read of `imageETag` throws.  In both cases `putItem` is not called
and the table is as it was. -/
theorem create_unparsable_body_escapes :
    sampleParse "garbage" = none ∧
    create (sampleEnv "e1" 200 "garbage") sampleStore sampleImage
        ⟨some "thumbs", some "uuid-1"⟩ sampleOptions =
      ⟨.threw .syntaxError,
       [Event.create sampleImage ⟨some "thumbs", some "uuid-1"⟩ sampleOptions,
        Event.request (requestUri sampleConfig sampleImage ⟨some "thumbs", some "uuid-1"⟩
          sampleOptions)],
       sampleStore⟩ ∧
    sampleParse "null" = some .null ∧
    create (sampleEnv "e1" 200 "null") sampleStore sampleImage
        ⟨some "thumbs", some "uuid-1"⟩ sampleOptions =
      ⟨.threw .typeError,
       [Event.create sampleImage ⟨some "thumbs", some "uuid-1"⟩ sampleOptions,
        Event.request (requestUri sampleConfig sampleImage ⟨some "thumbs", some "uuid-1"⟩
          sampleOptions)],
       sampleStore⟩ := by
  refine ⟨by decide, by decide, by decide, by decide⟩

theorem cache_request_mem (env : Env) (store : Store) (image : Image) (options : Options)
    (uri : String) (h : Event.request uri ∈ (cache env store image options).trace) :
    ∃ thumb status before, uri = requestUri env.config image thumb options ∧
      cache env store image options =
        tagStatus status (create env store image thumb options) before ∧
      before.filter Event.isPutItem = [] := by
  have key : ∀ thumb status before,
      cache env store image options =
        tagStatus status (create env store image thumb options) before →
      Event.request uri ∉ before → before.filter Event.isPutItem = [] →
      ∃ thumb status before, uri = requestUri env.config image thumb options ∧
        cache env store image options =
          tagStatus status (create env store image thumb options) before ∧
        before.filter Event.isPutItem = [] := by
    intro thumb status before hc hnot hput
    refine ⟨thumb, status, before, ?_, hc, hput⟩
    rw [hc, tagStatus_trace, List.mem_append] at h
    rcases h with h | h
    · exact absurd h hnot
    · obtain ⟨tail, htrace, htail⟩ := create_trace env store image thumb options
      rw [htrace] at h
      rcases htail with e | ⟨item, e⟩ <;> subst e <;> simpa using h
  cases hget : env.getItemErr with
  | some err => simp [cache, hget] at h
  | none =>
    cases hrec : store.get (index image options) with
    | none =>
      exact key ⟨some env.config.BUCKET, some env.uuid⟩ "added"
        [Event.getItem env.config.TABLE (index image options), Event.uuid]
        (by simp only [cache, hget, hrec]; rfl) (by simp)
        (by simp [List.filter, Event.isPutItem])
    | some record =>
      cases hhead : env.headObject image with
      | error err => simp [cache, hget, hrec, hhead] at h
      | ok etag =>
        cases hstored : getField record "ImageETag" with
        | none => simp [cache, hget, hrec, hhead, hstored] at h
        | some stored =>
          by_cases heq : some etag = stored.getS
          · simp [cache, hget, hrec, hhead, hstored, heq] at h
          · cases htb : getField record "ThumbBucket" with
            | none => simp [cache, hget, hrec, hhead, hstored, heq, htb] at h
            | some tb =>
              cases htk : getField record "ThumbKey" with
              | none => simp [cache, hget, hrec, hhead, hstored, heq, htb, htk] at h
              | some tk =>
                exact key ⟨tb.getS, tk.getS⟩ "updated"
                  [Event.getItem env.config.TABLE (index image options), Event.headObject image]
                  (by simp only [cache, hget, hrec, hhead, hstored, heq, if_false, htb, htk]; rfl)
                  (by simp) (by simp [List.filter, Event.isPutItem])

theorem tagStatus_error (status : String) (store : Store) (err : Err) (trace before : List Event) :
    tagStatus status ⟨.callback (some err) none, trace, store⟩ before =
      ⟨.callback (some err) none, before ++ trace, store⟩ := rfl

/-- C8: in `cache`, (a) a failed read of the table, (b) a failed fingerprint
query, (c) a rendering request that fails in transport and (d) a rendering
answer with a status other than 200 each hand the callback an error and a
`null` record, make no later call, call no `putItem` and leave the table as it
was; in (d) the message of the error ends with the status code. -/
theorem cache_error_propagation (env : Env) (store : Store) (image : Image) (options : Options) :
    (∀ err, env.getItemErr = some err →
      cache env store image options =
        ⟨.callback (some err) none,
         [Event.getItem env.config.TABLE (index image options)], store⟩) ∧
    (∀ record err, env.getItemErr = none →
      store.get (index image options) = some record →
      env.headObject image = .error err →
      cache env store image options =
        ⟨.callback (some err) none,
         [Event.getItem env.config.TABLE (index image options), Event.headObject image],
         store⟩) ∧
    (∀ uri err, Event.request uri ∈ (cache env store image options).trace →
      env.request uri = .error err →
      (cache env store image options).outcome = .callback (some err) none ∧
      (cache env store image options).trace.getLast? = some (Event.request uri) ∧
      (cache env store image options).trace.filter Event.isPutItem = [] ∧
      (cache env store image options).store = store) ∧
    (∀ uri statusCode body, Event.request uri ∈ (cache env store image options).trace →
      env.request uri = .ok (statusCode, body) → statusCode ≠ 200 →
      (cache env store image options).outcome =
        .callback (some ⟨"s3 thumbnail API request error: " ++ toString statusCode⟩) none ∧
      (cache env store image options).trace.getLast? = some (Event.request uri) ∧
      (cache env store image options).trace.filter Event.isPutItem = [] ∧
      (cache env store image options).store = store) := by
  refine ⟨?_, ?_, ?_, ?_⟩
  · intro err hget
    simp [cache, hget]
  · intro record err hget hrec hhead
    simp [cache, hget, hrec, hhead]
  · intro uri err hmem hreq
    obtain ⟨thumb, status, before, huri, hcache, hbefore⟩ :=
      cache_request_mem env store image options uri hmem
    subst huri
    rw [hcache, create_request_error _ _ _ _ _ _ hreq, tagStatus_error]
    refine ⟨rfl, by simp, ?_, rfl⟩
    simp only [List.filter_append, hbefore]
    simp [List.filter, Event.isPutItem]
  · intro uri statusCode body hmem hreq hstatus
    obtain ⟨thumb, status, before, huri, hcache, hbefore⟩ :=
      cache_request_mem env store image options uri hmem
    subst huri
    rw [hcache, create_bad_status _ _ _ _ _ _ _ hreq hstatus, tagStatus_error]
    refine ⟨rfl, by simp, ?_, rfl⟩
    simp only [List.filter_append, hbefore]
    simp [List.filter, Event.isPutItem]

/-- C8 in the scenario: with the record in the table and a changed
fingerprint, a rendering answer with status 503 gives the callback the error
with that code and leaves the table as it was; a failed read of the table
gives the callback its error. -/
theorem cache_error_propagation_witness :
    (cache (sampleEnv "e2" 503 "busy") sampleStore sampleImage sampleOptions).outcome =
      .callback (some ⟨"s3 thumbnail API request error: 503"⟩) none ∧
    (cache (sampleEnv "e2" 503 "busy") sampleStore sampleImage sampleOptions).store =
      sampleStore ∧
    cache { sampleEnv "e1" 200 "e1.json" with getItemErr := some ⟨"table unreachable"⟩ }
        sampleStore sampleImage sampleOptions =
      ⟨.callback (some ⟨"table unreachable"⟩) none,
       [Event.getItem "thumbnails" (index sampleImage sampleOptions)], sampleStore⟩ :=
  have h := (cache_error_propagation (sampleEnv "e2" 503 "busy") sampleStore sampleImage
    sampleOptions).2.2.2
    (requestUri sampleConfig sampleImage ⟨some "thumbs", some "uuid-1"⟩ sampleOptions)
    503 "busy" (by decide) rfl (by decide)
  ⟨h.1, h.2.2.2,
   (cache_error_propagation { sampleEnv "e1" 200 "e1.json" with
      getItemErr := some ⟨"table unreachable"⟩ } sampleStore sampleImage sampleOptions).1
      ⟨"table unreachable"⟩ rfl⟩

/-! ## The record and the round trip -/

theorem assemble_eq_presentRecord (image : Image) (thumb : Thumb) (options : Options)
    (e t : String) (hwf : options.WellFormed) :
    assemble image thumb options ⟨some e, some t⟩ = presentRecord image thumb options e t := by
  rw [assemble_fields]
  obtain ⟨hw, hh, hc⟩ := hwf
  obtain ⟨w, h, c⟩ := options
  have hw0 : ∀ n, w = some n → n ≠ 0 := fun n e => Nat.pos_iff_ne_zero.mp (hw n e)
  have hh0 : ∀ n, h = some n → n ≠ 0 := fun n e => Nat.pos_iff_ne_zero.mp (hh n e)
  have hc0 : ∀ x, c = some x → x ≠ "" := by
    intro x e
    rcases hc x e with h1 | h1 <;> rw [h1] <;> decide
  cases w <;> cases h <;> cases c <;>
    simp_all [presentRecord, truthyNum, truthyStr, numStr]

/-- C9: for options of the data model and a destination `tb`/`tk`, a `create`
whose rendering answer has status 200 and carries `imageETag = e` and
`thumbType = t`, and whose write the table accepts, writes to the table and
hands to the callback the record with `Index = index(image, options)` (the key
`cache` reads for that image and options), `ImageBucket`, `ImageKey`,
`ImageETag = e`, `ThumbBucket`, `ThumbKey`, `ThumbContentType = t`, then
`Width`, `Height`, `Crop` for exactly the options that are present, with their
values, and no other attribute. -/
theorem create_record (env : Env) (store : Store) (image : Image) (tb tk : String)
    (options : Options) (body e t : String)
    (hwf : options.WellFormed)
    (hreq : env.request (requestUri env.config image ⟨some tb, some tk⟩ options) =
      .ok (200, body))
    (hparse : env.jsonParse body = some (.value ⟨some e, some t⟩))
    (hput : env.putItemErr = none) :
    (create env store image ⟨some tb, some tk⟩ options).outcome =
      .callback none (some (presentRecord image ⟨some tb, some tk⟩ options e t)) ∧
    (create env store image ⟨some tb, some tk⟩ options).trace =
      [Event.create image ⟨some tb, some tk⟩ options,
       Event.request (requestUri env.config image ⟨some tb, some tk⟩ options),
       Event.putItem env.config.TABLE (presentRecord image ⟨some tb, some tk⟩ options e t)] ∧
    (create env store image ⟨some tb, some tk⟩ options).store.get (index image options) =
      some (presentRecord image ⟨some tb, some tk⟩ options e t) ∧
    getField (presentRecord image ⟨some tb, some tk⟩ options e t) "Index" =
      some (.S (some (index image options))) ∧
    ∀ (env' : Env) (store' : Store), (cache env' store' image options).trace.head? =
      some (Event.getItem env'.config.TABLE (index image options)) := by
  rw [create_success _ _ _ _ _ _ _ hreq hparse hput,
    assemble_eq_presentRecord image ⟨some tb, some tk⟩ options e t hwf]
  refine ⟨rfl, rfl, by simp [Store.get], by simp [presentRecord, getField], ?_⟩
  intro env' store'
  cases hget : env'.getItemErr with
  | some err => simp [cache, hget]
  | none =>
    cases hrec : store'.get (index image options) with
    | none => rw [cache_no_record_eq _ _ _ _ hget hrec, tagStatus_trace]; rfl
    | some record =>
      cases hhead : env'.headObject image with
      | error err => simp [cache, hget, hrec, hhead]
      | ok etag =>
        cases hstored : getField record "ImageETag" with
        | none => simp [cache, hget, hrec, hhead, hstored]
        | some stored =>
          by_cases heq : some etag = stored.getS
          · simp [cache, hget, hrec, hhead, hstored, heq]
          · cases htb : getField record "ThumbBucket" with
            | none => simp [cache, hget, hrec, hhead, hstored, heq, htb]
            | some tbAttr =>
              cases htk : getField record "ThumbKey" with
              | none => simp [cache, hget, hrec, hhead, hstored, heq, htb, htk]
              | some tkAttr =>
                simp only [cache, hget, hrec, hhead, hstored, heq, if_false, htb, htk]
                rw [tagStatus_trace]
                rfl

/-- C9 in the scenario: width 100, no height, crop `Center`. -/
theorem create_record_witness :
    (create (sampleEnv "e1" 200 "e1.json") [] sampleImage ⟨some "thumbs", some "uuid-1"⟩
      sampleOptions).outcome =
      .callback none (some
        [("Index", .S (some "b=imgsk=a.pngw=100c=Center")),
         ("ImageBucket", .S (some "imgs")),
         ("ImageKey", .S (some "a.png")),
         ("ImageETag", .S (some "e1")),
         ("ThumbBucket", .S (some "thumbs")),
         ("ThumbKey", .S (some "uuid-1")),
         ("ThumbContentType", .S (some "image/png")),
         ("Width", .N "100"),
         ("Crop", .S (some "Center"))]) :=
  (create_record (sampleEnv "e1" 200 "e1.json") [] sampleImage "thumbs" "uuid-1"
    sampleOptions "e1.json" "e1" "image/png" ⟨by simp [sampleOptions], by simp [sampleOptions],
      by simp [sampleOptions]⟩ rfl (by decide) rfl).1

/-- C10, as stated, fails on the statuses: in the scenario the three calls
hand the callback `Status` `added`, `cached` and `updated`, not `created`,
`unchanged` and `refreshed`.  The `ImageETag` of the third record is the one
in the rendering answer: when the object store reports `e2` and the rendering
answer still carries `e1`, the record has `e1`. -/
theorem round_trip_statuses :
    Store.get [] (index sampleImage sampleOptions) = none ∧
    (cache (sampleEnv "e1" 200 "e1.json") [] sampleImage sampleOptions).status =
      some (.S (some "added")) ∧
    (cache (sampleEnv "e1" 200 "e1.json") [] sampleImage sampleOptions).status ≠
      some (.S (some "created")) ∧
    (cache (sampleEnv "e1" 200 "e1.json")
      (cache (sampleEnv "e1" 200 "e1.json") [] sampleImage sampleOptions).store
      sampleImage sampleOptions).status = some (.S (some "cached")) ∧
    (cache (sampleEnv "e2" 200 "e2.json")
      (cache (sampleEnv "e1" 200 "e1.json") [] sampleImage sampleOptions).store
      sampleImage sampleOptions).status = some (.S (some "updated")) ∧
    (match (cache (sampleEnv "e2" 200 "e1.json")
        (cache (sampleEnv "e1" 200 "e1.json") [] sampleImage sampleOptions).store
        sampleImage sampleOptions).record with
      | some item => getField item "ImageETag"
      | none => none) = some (.S (some "e1")) := by
  refine ⟨by decide, by decide, by decide, by decide, by decide, by decide⟩

/-- C10, amended in the statuses only.  From a table with no record for
`index(image, options)`: a first call whose rendering answer carries
`imageETag = e` writes a record and hands it over with `Status` `added`; a
second call with the same image and options, while the object store reports
`e`, enters `create` not at all, leaves the table as it is and hands over the
record the first call wrote with `Status` `cached`; a third call, when the
object store reports `e2 ≠ e` and the rendering answer carries
`imageETag = e2`, enters `create` once with the destination of the first call
and hands over a record with `ImageETag = e2` and `Status` `updated`. -/
theorem cache_round_trip (env1 env2 env3 : Env) (store : Store) (image : Image)
    (options : Options) (e e2 t t3 body1 body3 : String)
    (hnone : store.get (index image options) = none)
    (hget1 : env1.getItemErr = none)
    (hreq1 : env1.request (requestUri env1.config image
      ⟨some env1.config.BUCKET, some env1.uuid⟩ options) = .ok (200, body1))
    (hparse1 : env1.jsonParse body1 = some (.value ⟨some e, some t⟩))
    (hput1 : env1.putItemErr = none)
    (hget2 : env2.getItemErr = none)
    (hhead2 : env2.headObject image = .ok e)
    (hget3 : env3.getItemErr = none)
    (hhead3 : env3.headObject image = .ok e2)
    (hne : e2 ≠ e)
    (hreq3 : env3.request (requestUri env3.config image
      ⟨some env1.config.BUCKET, some env1.uuid⟩ options) = .ok (200, body3))
    (hparse3 : env3.jsonParse body3 = some (.value ⟨some e2, some t3⟩))
    (hput3 : env3.putItemErr = none) :
    (cache env1 store image options).outcome =
      .callback none (some (setField
        (assemble image ⟨some env1.config.BUCKET, some env1.uuid⟩ options ⟨some e, some t⟩)
        "Status" (.S (some "added")))) ∧
    (cache env1 store image options).trace.filter Event.isCreate =
      [Event.create image ⟨some env1.config.BUCKET, some env1.uuid⟩ options] ∧
    (cache env1 store image options).store.get (index image options) =
      some (assemble image ⟨some env1.config.BUCKET, some env1.uuid⟩ options
        ⟨some e, some t⟩) ∧
    (cache env2 (cache env1 store image options).store image options).outcome =
      .callback none (some (setField
        (assemble image ⟨some env1.config.BUCKET, some env1.uuid⟩ options ⟨some e, some t⟩)
        "Status" (.S (some "cached")))) ∧
    (cache env2 (cache env1 store image options).store image options).trace.filter
      Event.isCreate = [] ∧
    (cache env2 (cache env1 store image options).store image options).store =
      (cache env1 store image options).store ∧
    (cache env3 (cache env2 (cache env1 store image options).store image options).store
      image options).trace.filter Event.isCreate =
      [Event.create image ⟨some env1.config.BUCKET, some env1.uuid⟩ options] ∧
    (cache env3 (cache env2 (cache env1 store image options).store image options).store
      image options).outcome =
      .callback none (some (setField
        (assemble image ⟨some env1.config.BUCKET, some env1.uuid⟩ options ⟨some e2, some t3⟩)
        "Status" (.S (some "updated")))) ∧
    getField (setField
        (assemble image ⟨some env1.config.BUCKET, some env1.uuid⟩ options ⟨some e2, some t3⟩)
        "Status" (.S (some "updated"))) "ImageETag" = some (.S (some e2)) ∧
    getField (setField
        (assemble image ⟨some env1.config.BUCKET, some env1.uuid⟩ options ⟨some e2, some t3⟩)
        "Status" (.S (some "updated"))) "ThumbKey" = some (.S (some env1.uuid)) := by
  have hfield : ∀ (d : Data),
      getField (assemble image ⟨some env1.config.BUCKET, some env1.uuid⟩ options d)
          "ImageETag" = some (.S d.imageETag) ∧
      getField (assemble image ⟨some env1.config.BUCKET, some env1.uuid⟩ options d)
          "ThumbBucket" = some (.S (some env1.config.BUCKET)) ∧
      getField (assemble image ⟨some env1.config.BUCKET, some env1.uuid⟩ options d)
          "ThumbKey" = some (.S (some env1.uuid)) := by
    intro d
    rw [assemble_fields]
    simp [getField]
  -- first call
  have h1 : cache env1 store image options =
      tagStatus "added" (create env1 store image ⟨some env1.config.BUCKET, some env1.uuid⟩
        options) [Event.getItem env1.config.TABLE (index image options), Event.uuid] :=
    cache_no_record_eq env1 store image options hget1 hnone
  have hc1 := create_success env1 store image ⟨some env1.config.BUCKET, some env1.uuid⟩ options
    body1 ⟨some e, some t⟩ hreq1 hparse1 hput1
  have hs1 : (cache env1 store image options).store.get (index image options) =
      some (assemble image ⟨some env1.config.BUCKET, some env1.uuid⟩ options
        ⟨some e, some t⟩) := by
    rw [h1, tagStatus_store, hc1]
    simp [Store.get]
  -- second call
  have h2 := cache_unchanged_eq env2 (cache env1 store image options).store image options
    (assemble image ⟨some env1.config.BUCKET, some env1.uuid⟩ options ⟨some e, some t⟩)
    e (.S (some e)) hget2 hs1 hhead2 (hfield ⟨some e, some t⟩).1 rfl
  have h2o := congrArg Result.outcome h2
  have h2s := congrArg Result.store h2
  have h2c : (cache env2 (cache env1 store image options).store image options).trace.filter
      Event.isCreate = [] := by
    rw [h2]
    simp [List.filter, Event.isCreate]
  -- third call
  have h3 : cache env3 (cache env1 store image options).store image options =
      tagStatus "updated" (create env3 (cache env1 store image options).store image
        ⟨some env1.config.BUCKET, some env1.uuid⟩ options)
        [Event.getItem env3.config.TABLE (index image options), Event.headObject image] :=
    cache_refresh_eq env3 (cache env1 store image options).store image options
      (assemble image ⟨some env1.config.BUCKET, some env1.uuid⟩ options ⟨some e, some t⟩)
      e2 (.S (some e)) env1.config.BUCKET env1.uuid hget3 hs1 hhead3
      (hfield ⟨some e, some t⟩).1 (by simpa [Attr.getS] using hne.symm)
      (hfield ⟨some e, some t⟩).2.1 (hfield ⟨some e, some t⟩).2.2
  have hc3 := create_success env3 (cache env1 store image options).store image
    ⟨some env1.config.BUCKET, some env1.uuid⟩ options body3 ⟨some e2, some t3⟩ hreq3 hparse3 hput3
  refine ⟨?_, ?_, hs1, h2o, h2c, h2s, ?_, ?_, ?_, ?_⟩
  · rw [h1]
    exact tagStatus_success _ _ _ _ (by rw [hc1])
  · rw [h1, tagStatus_trace, List.filter_append,
      (create_trace_filters env1 _ image _ options).1]
    simp [List.filter, Event.isCreate]
  · rw [h2s, h3, tagStatus_trace, List.filter_append,
      (create_trace_filters env3 _ image _ options).1]
    simp [List.filter, Event.isCreate]
  · rw [h2s, h3]
    exact tagStatus_success _ _ _ _ (by rw [hc3])
  · rw [getField_setField_ne _ _ _ _ (by decide)]
    exact (hfield ⟨some e2, some t3⟩).1
  · rw [getField_setField_ne _ _ _ _ (by decide)]
    exact (hfield ⟨some e2, some t3⟩).2.2

/-- The amended C10 in the scenario: bucket `imgs`, key `a.png`, width 100,
crop `Center`, fingerprints `e1` then `e2`. -/
theorem cache_round_trip_witness :
    (cache (sampleEnv "e1" 200 "e1.json")
      (cache (sampleEnv "e1" 200 "e1.json") [] sampleImage sampleOptions).store
      sampleImage sampleOptions).outcome =
      .callback none (some (setField sampleRecord "Status" (.S (some "cached")))) ∧
    (cache (sampleEnv "e2" 200 "e2.json")
      (cache (sampleEnv "e1" 200 "e1.json")
        (cache (sampleEnv "e1" 200 "e1.json") [] sampleImage sampleOptions).store
        sampleImage sampleOptions).store
      sampleImage sampleOptions).trace.filter Event.isCreate =
      [Event.create sampleImage ⟨some "thumbs", some "uuid-1"⟩ sampleOptions] :=
  have h := cache_round_trip (sampleEnv "e1" 200 "e1.json") (sampleEnv "e1" 200 "e1.json")
    (sampleEnv "e2" 200 "e2.json") [] sampleImage sampleOptions "e1" "e2" "image/png"
    "image/png" "e1.json" "e2.json" (by decide) rfl rfl (by decide) rfl rfl rfl rfl rfl
    (by decide) rfl (by decide) rfl
  ⟨h.2.2.2.1, h.2.2.2.2.2.2.1⟩

end ThumbnailCache
